import Mathlib

/-!
Verification of the `unnecessary_indexing` lint
(`src/clippy_lints/src/methods/unnecessary_indexing.rs`).

The lint pipeline is: `check` (entry point) → `get_higher_if` (guard
resolution by ascending the HIR parent chain) → `IfExprWithIsEmpty.block_to_visit`
(branch selection) → a visitor over the branch collecting index accesses →
optionally `make_suggestion` (textual rewrite synthesis).

The HIR fragment, the clippy_utils oracles (`path_to_local`,
`consts::constant_full_int`, `higher::If::hir`, `for_each_expr_with_closures`,
`snippet_with_applicability`) and Rust's `str::replace` are external to the
file under verification; they are modelled here as executable Lean functions,
each marked in its doc comment.
-/

set_option maxRecDepth 8192

namespace UnnecessaryIndexing

/-- Shallow embedding of the fragment of rustc HIR `ExprKind` that
`unnecessary_indexing.rs` inspects: local references (resolved paths),
unsigned integer literals, index expressions `base[idx]`, unary not,
method calls, function calls, `if` expressions, blocks, closures, and a
catch-all for every other expression kind. -/
inductive Expr where
  | localRef (id : Nat)
  | litE (n : Nat)
  | index (base idx : Expr)
  | unaryNot (e : Expr)
  | methodCall (name : String) (recvr : Expr) (args : List Expr)
  | callE (f : Expr) (args : List Expr)
  | iteE (cond : Expr) (then_ : Expr) (else_ : Option Expr)
  | blockE (stmts : List Expr)
  | closureE (body : Expr)
  | otherE

/-- Constant-evaluation results, from `clippy_utils::consts::FullInt`:
unsigned (`U`) or signed (`S`) full integers. -/
inductive FullInt where
  | U (n : Nat)
  | S (i : Int)

/-- Modelled from the spec: the name-resolution oracle
(`clippy_utils::path_to_local`) — resolves an expression to the `HirId` of
the local variable it denotes, when it is a path to a local. -/
def path_to_local : Expr → Option Nat
  | .localRef id => some id
  | _ => none

/-- Modelled from the spec: the constant-folding oracle
(`clippy_utils::consts::constant_full_int`) — best-effort constant
evaluation; a compile-time-visible unsigned literal evaluates to
`FullInt.U`, everything else is not statically known. -/
def constant_full_int : Expr → Option FullInt
  | .litE n => some (FullInt.U n)
  | _ => none

/-- The two-valued continuation signal `std::ops::ControlFlow<()>` used by
the scanning visitor. -/
inductive ControlFlow where
  | Break
  | Continue

/-- The mutable state of the visitor closure in `check`: the
`should_lint` flag and the collected `spans_to_replace` (spans are
modelled by the index-access expressions themselves). -/
structure ScanState where
  should_lint : Bool
  spans_to_replace : List Expr

mutual

/-- Modelled from the spec: preorder enumeration of an expression and all
of its sub-expressions, descending into closure bodies, as visited by
`clippy_utils::visitors::for_each_expr_with_closures`. -/
def subExprs : Expr → List Expr
  | .localRef n => [.localRef n]
  | .litE n => [.litE n]
  | .index b i => .index b i :: (subExprs b ++ subExprs i)
  | .unaryNot e => .unaryNot e :: subExprs e
  | .methodCall nm r args => .methodCall nm r args :: (subExprs r ++ subExprsList args)
  | .callE f args => .callE f args :: (subExprs f ++ subExprsList args)
  | .iteE c t el => .iteE c t el :: (subExprs c ++ subExprs t ++ subExprsOpt el)
  | .blockE stmts => .blockE stmts :: subExprsList stmts
  | .closureE b => .closureE b :: subExprs b
  | .otherE => [.otherE]

/-- Preorder enumeration of the sub-expressions of each element of a list
of expressions (the statements of a block), in order. -/
def subExprsList : List Expr → List Expr
  | [] => []
  | e :: es => subExprs e ++ subExprsList es

/-- Preorder enumeration of the sub-expressions of an optional expression. -/
def subExprsOpt : Option Expr → List Expr
  | none => []
  | some e => subExprs e

end

/-- Left-to-right fold of a `ControlFlow`-returning visitor over a list of
expressions; `Break` stops the whole traversal at once, keeping the state
produced so far. -/
def foldCF (f : Expr → ScanState → ScanState × ControlFlow) :
    List Expr → ScanState → ScanState
  | [], st => st
  | e :: es, st =>
    match f e st with
    | (st2, ControlFlow.Break) => st2
    | (st2, ControlFlow.Continue) => foldCF f es st2

/-- Modelled from the spec:
`clippy_utils::visitors::for_each_expr_with_closures` applied to a block —
the visitor is called on every expression of the block in preorder,
including inside nested closure bodies, and a `Break` result stops the
traversal immediately. -/
def for_each_expr_with_closures (f : Expr → ScanState → ScanState × ControlFlow)
    (block : List Expr) (st : ScanState) : ScanState :=
  foldCF f (subExprsList block) st

namespace higher

/-- Modelled from the spec: `clippy_utils::higher::If` — an `if`
expression decomposed into condition, then-block and optional else-block. -/
structure If where
  cond : Expr
  then_ : Expr
  else_ : Option Expr

/-- Modelled from the spec: `higher::If::hir` — succeeds exactly on `if`
expressions, decomposing them. -/
def If.hir : Expr → Option If
  | .iteE c t el => some (If.mk c t el)
  | _ => none

end higher

/-- The struct `IfExprWithIsEmpty`: a resolved governing `if` together
with `if_is_empty`, which is `true` when the condition as seen from the
`if` means "is empty" (`if x.is_empty()`), `false` when it means
"is non-empty" (`if !x.is_empty()`). -/
structure IfExprWithIsEmpty where
  higher_if : higher.If
  if_is_empty : Bool

/-- `IfExprWithIsEmpty::new_with_not_op_count`: the sense is "is empty"
iff the number of unary-not layers is even. -/
def IfExprWithIsEmpty.new_with_not_op_count (higher_if : higher.If)
    (not_op_count : Nat) : IfExprWithIsEmpty :=
  { higher_if := higher_if, if_is_empty := not_op_count % 2 == 0 }

/-- The local helper `get_block_from_expr_opt` inside `block_to_visit`:
extracts the block of a block expression, if the optional expression is
present and is a block. -/
def get_block_from_expr_opt : Option Expr → Option (List Expr)
  | some (.blockE b) => some b
  | _ => none

/-- `IfExprWithIsEmpty::block_to_visit`: the block to visit after assuming
the condition — the `else` block when `if_is_empty` is `true`, the `then`
block when it is `false`. -/
def IfExprWithIsEmpty.block_to_visit (s : IfExprWithIsEmpty) : Option (List Expr) :=
  if s.if_is_empty then
    get_block_from_expr_opt s.higher_if.else_
  else
    get_block_from_expr_opt (some s.higher_if.then_)

/-- Modelled from the spec: one entry of the HIR parent chain
(`rustc Node`): either an expression node or any other node kind. -/
inductive Node where
  | expr (e : Expr)
  | otherN

/-- The loop body of `get_higher_if` over the parent chain, carrying the
running `not_op_count`: a non-expression parent aborts; an `if` parent
yields the guard with the current count; a unary-not parent increments the
count; a function-call or method-call parent aborts; every other
expression kind is skipped. -/
def get_higher_if_loop : List Node → Nat → Option IfExprWithIsEmpty
  | [], _ => none
  | node :: rest, not_op_count =>
    match node with
    | Node.expr e =>
      match higher.If.hir e with
      | some parent_if =>
        some (IfExprWithIsEmpty.new_with_not_op_count parent_if not_op_count)
      | none =>
        match e with
        | .unaryNot _ => get_higher_if_loop rest (not_op_count + 1)
        | .methodCall _ _ _ => none
        | .callE _ _ => none
        | _ => get_higher_if_loop rest not_op_count
    | Node.otherN => none

/-- `get_higher_if`: ascend the parent chain of the `is_empty` call
(modelled as the explicit list of ancestor nodes yielded by
`parent_iter`, nearest first), starting with `not_op_count = 0`. -/
def get_higher_if (ancestors : List Node) : Option IfExprWithIsEmpty :=
  get_higher_if_loop ancestors 0

/-- The visitor closure inside `check`: on an index expression whose base
resolves to the same local as the receiver and whose bracket
constant-evaluates to an unsigned value, record the access and set
`should_lint` on value zero, or clear `should_lint` and break on a
nonzero value; every other expression (and every failing oracle lookup)
leaves the state unchanged and continues. -/
def visit_index (receiver : Expr) (ex : Expr) (st : ScanState) :
    ScanState × ControlFlow :=
  match ex with
  | .index seq bracket =>
    match path_to_local seq, path_to_local receiver with
    | some seq_path_hid, some recv_path_hid =>
      if seq_path_hid == recv_path_hid then
        match constant_full_int bracket with
        | some (FullInt.U val) =>
          if val == 0 then
            ({ should_lint := true,
               spans_to_replace := st.spans_to_replace ++ [Expr.index seq bracket] },
             ControlFlow.Continue)
          else
            ({ st with should_lint := false }, ControlFlow.Break)
        | _ => (st, ControlFlow.Continue)
      else (st, ControlFlow.Continue)
    | _, _ => (st, ControlFlow.Continue)
  | _ => (st, ControlFlow.Continue)

/-- The scan performed by `check` on the resolved block: the visitor above
run over the block's expressions in preorder. -/
def run_visitor (receiver : Expr) (es : List Expr) (st : ScanState) : ScanState :=
  foldCF (visit_index receiver) es st

/-- The entry point `check(cx, expr, method_name, receiver)`. The parent
chain of `expr` is passed explicitly (it models
`cx.tcx.hir().parent_iter(expr.hir_id)`); the result is `some cond` when
`span_lint_and_then` is invoked (anchored at the condition's span,
modelled by the condition expression), `none` when no diagnostic is
emitted. -/
def check (ancestors : List Node) (method_name : String) (receiver : Expr) :
    Option Expr :=
  if method_name == "is_empty" then
    match get_higher_if ancestors with
    | some parent_if =>
      match parent_if.block_to_visit with
      | some block =>
        let st := for_each_expr_with_closures (visit_index receiver) block
          { should_lint := false, spans_to_replace := [] }
        if st.should_lint then some parent_if.higher_if.cond else none
      | none => none
    | none => none
  else none

/-- Modelled from the spec: Rust `str::replace` on character lists —
replace every non-overlapping occurrence of `pat` by `sub`, left to
right. The fuel argument (instantiated with the input length) only makes
the recursion structural; for a nonempty `pat` each step consumes at
least one input character, so the fuel never runs out. -/
def replace_fuel (pat sub : List Char) : Nat → List Char → List Char
  | 0, s => s
  | _ + 1, [] => []
  | fuel + 1, c :: rest =>
    if pat.isPrefixOf (c :: rest) then
      sub ++ replace_fuel pat sub fuel ((c :: rest).drop pat.length)
    else
      c :: replace_fuel pat sub fuel rest

/-- Modelled from the spec: Rust `String::replace(pat, sub)`. -/
def str_replace (s pat sub : String) : String :=
  String.mk (replace_fuel pat.data sub.data s.data.length s.data)

/-- Whether `pat` occurs as a contiguous substring of `s` (used only to
state properties of the synthesized texts). -/
def contains_sub (pat : List Char) : List Char → Bool
  | [] => pat.isEmpty
  | c :: rest => pat.isPrefixOf (c :: rest) || contains_sub pat rest

/-- `make_suggestion(cx, if_expr, receiver)`: builds the condition
replacement and the `then`/`else` block replacements. `snip` models
`snippet_with_applicability`, retrieving the source text of an
expression's span. Returns `none` when the required `else` snippet is
missing (`r#else?`). -/
def make_suggestion (snip : Expr → String) (if_expr : IfExprWithIsEmpty)
    (receiver : Expr) : Option (String × String × String) :=
  let caller := snip receiver
  let cond_sugg := "let x = " ++ caller ++ ".first()"
  match if_expr.if_is_empty, if_expr.higher_if.else_ with
  | true, some el =>
    some (cond_sugg, snip el, snip if_expr.higher_if.then_)
  | false, some el =>
    some (cond_sugg,
      str_replace (snip if_expr.higher_if.then_) (caller ++ "[0]") ("x"),
      snip el)
  | _, none => none

/-- Classifier (used only in theorem statements): `ex` is an index access
on the same local as `receiver` whose index constant-evaluates to the
unsigned value zero — a qualifying access. -/
def qualifying_access (receiver ex : Expr) : Bool :=
  match ex with
  | .index seq bracket =>
    match path_to_local seq, path_to_local receiver with
    | some s, some r =>
      if s == r then
        match constant_full_int bracket with
        | some (FullInt.U val) => val == 0
        | _ => false
      else false
    | _, _ => false
  | _ => false

/-- Classifier (used only in theorem statements): `ex` is an index access
on the same local as `receiver` whose index constant-evaluates to a
nonzero unsigned value — the only kind of access on which the scan
breaks. -/
def breaking_access (receiver ex : Expr) : Bool :=
  match ex with
  | .index seq bracket =>
    match path_to_local seq, path_to_local receiver with
    | some s, some r =>
      if s == r then
        match constant_full_int bracket with
        | some (FullInt.U val) => !(val == 0)
        | _ => false
      else false
    | _, _ => false
  | _ => false

/-- Classifier (used only in theorem statements): the parent-chain node is
an `if` expression. -/
def isIfNode : Node → Bool
  | Node.expr e => (higher.If.hir e).isSome
  | Node.otherN => false

/-- Classifier (used only in theorem statements): the expression is a
function call or a method call. -/
def isCallKind : Expr → Bool
  | .methodCall _ _ _ => true
  | .callE _ _ => true
  | _ => false

/-- A concrete snippet oracle for evaluating `make_suggestion` on concrete
inputs: locals render as `seq`, the empty block as `return;`, any other
block as `use(seq[0]);`. -/
def snipFix : Expr → String
  | .localRef _ => "seq"
  | .blockE [] => "return;"
  | .blockE _ => "use(seq[0]);"
  | _ => "?"

/-- Case analysis of the visitor closure: on a breaking access it clears
`should_lint` and breaks; on a qualifying access it sets `should_lint` and
records the access; on everything else it is the identity. -/
theorem visit_index_eq (receiver ex : Expr) (st : ScanState) :
    visit_index receiver ex st =
      if breaking_access receiver ex then
        ({ st with should_lint := false }, ControlFlow.Break)
      else if qualifying_access receiver ex then
        ({ should_lint := true, spans_to_replace := st.spans_to_replace ++ [ex] },
         ControlFlow.Continue)
      else (st, ControlFlow.Continue) := by
  cases ex <;> try rfl
  rename_i b i
  cases hpb : path_to_local b with
  | none => simp [visit_index, breaking_access, qualifying_access, hpb]
  | some s =>
    cases hpr : path_to_local receiver with
    | none => simp [visit_index, breaking_access, qualifying_access, hpb, hpr]
    | some r =>
      by_cases hsr : s = r
      · cases hci : constant_full_int i with
        | none => simp [visit_index, breaking_access, qualifying_access, hpb, hpr, hci, hsr]
        | some fi =>
          cases fi with
          | U val =>
            by_cases hv : val = 0 <;>
              simp [visit_index, breaking_access, qualifying_access, hpb, hpr, hci, hsr, hv]
          | S j => simp [visit_index, breaking_access, qualifying_access, hpb, hpr, hci, hsr]
      · simp [visit_index, breaking_access, qualifying_access, hpb, hpr, hsr]

/-- Characterization of the scan: starting from any state, the final
`should_lint` is `true` iff no visited expression is a breaking access and
either the flag was already set or some visited expression is a
qualifying access. -/
theorem run_visitor_should_lint (receiver : Expr) (es : List Expr) (st : ScanState) :
    (run_visitor receiver es st).should_lint = true ↔
      ((∀ e ∈ es, breaking_access receiver e = false) ∧
       (st.should_lint = true ∨ ∃ e ∈ es, qualifying_access receiver e = true)) := by
  induction es generalizing st with
  | nil => simp [run_visitor, foldCF]
  | cons e rest ih =>
    simp only [run_visitor, foldCF] at ih ⊢
    rw [visit_index_eq]
    by_cases hb : breaking_access receiver e = true
    · simp [hb]
    · by_cases hq : qualifying_access receiver e = true
      · simp only [Bool.not_eq_true] at hb
        simp [hb, hq, ih]
      · simp only [Bool.not_eq_true] at hb hq
        simp [hb, hq, ih]

/-- A breaking access stops the scan immediately: the rest of the
traversal is never consulted and the state is the incoming one with
`should_lint` cleared. -/
theorem run_visitor_break (receiver ex : Expr) (rest : List Expr) (st : ScanState)
    (hb : breaking_access receiver ex = true) :
    run_visitor receiver (ex :: rest) st = { st with should_lint := false } := by
  simp only [run_visitor, foldCF]
  rw [visit_index_eq]
  simp [hb]

/-- Ascending through `k` unary-not layers and then reaching an `if`
yields the guard for that `if`, with `if_is_empty` equal to the parity
bit of the accumulated count. -/
theorem get_higher_if_loop_nots (ws : List Expr) (c t : Expr) (el : Option Expr)
    (rest : List Node) (cnt : Nat) :
    get_higher_if_loop
        ((ws.map fun w => Node.expr (Expr.unaryNot w)) ++
          Node.expr (Expr.iteE c t el) :: rest) cnt
      = some ⟨⟨c, t, el⟩, (cnt + ws.length) % 2 == 0⟩ := by
  induction ws generalizing cnt with
  | nil =>
    simp [get_higher_if_loop, higher.If.hir, IfExprWithIsEmpty.new_with_not_op_count]
  | cons w ws ih =>
    simp only [List.map_cons, List.cons_append, get_higher_if_loop, higher.If.hir]
    have hn : cnt + 1 + ws.length = cnt + (ws.length + 1) := by omega
    simpa [List.append_eq, hn] using ih (cnt + 1)

/-- Ascending through non-`if` nodes and then reaching a function call or
a method call aborts the ascent with no guard. -/
theorem get_higher_if_loop_call (pre : List Node) (rest : List Node) (e : Expr)
    (cnt : Nat) (hcall : isCallKind e = true)
    (hpre : ∀ n ∈ pre, isIfNode n = false) :
    get_higher_if_loop (pre ++ Node.expr e :: rest) cnt = none := by
  induction pre generalizing cnt with
  | nil =>
    cases e <;> simp [isCallKind] at hcall <;>
      simp [get_higher_if_loop, higher.If.hir]
  | cons nd pre ih =>
    have htail : ∀ m ∈ pre, isIfNode m = false := fun m hm =>
      hpre m (List.mem_cons_of_mem _ hm)
    cases nd with
    | otherN => simp [get_higher_if_loop]
    | expr e2 =>
      have hnif : isIfNode (Node.expr e2) = false := hpre _ (List.mem_cons_self _ _)
      simp only [isIfNode] at hnif
      have hhir : higher.If.hir e2 = none := by
        cases h : higher.If.hir e2 with
        | none => rfl
        | some v => rw [h] at hnif; simp at hnif
      cases e2 <;>
        simp only [List.cons_append, get_higher_if_loop, hhir] <;>
        exact ih _ htail

/-- C2: Negation parity — for any number `k` of unary-not layers wrapping
the emptiness check on the way up to the governing conditional, the
resolved sense is "is empty" (`if_is_empty = true`) iff `k` is even. -/
theorem C2_negation_parity (ws : List Expr) (c t : Expr) (el : Option Expr)
    (rest : List Node) :
    ∃ g, get_higher_if
        ((ws.map fun w => Node.expr (Expr.unaryNot w)) ++
          Node.expr (Expr.iteE c t el) :: rest) = some g ∧
      g.higher_if = ⟨c, t, el⟩ ∧ (g.if_is_empty = true ↔ ws.length % 2 = 0) := by
  refine ⟨⟨⟨c, t, el⟩, (0 + ws.length) % 2 == 0⟩, ?_, rfl, ?_⟩
  · simpa [get_higher_if] using get_higher_if_loop_nots ws c t el rest 0
  · simp

/-- C4: Call-ascent abort — when the ascent from the emptiness check
passes a function-call or method-call expression node before reaching any
conditional, `get_higher_if` resolves no guard and the entry point emits
no diagnostic, whatever the method name. -/
theorem C4_call_ascent_abort (pre rest : List Node) (e : Expr) (m : String)
    (receiver : Expr) (hcall : isCallKind e = true)
    (hpre : ∀ n ∈ pre, isIfNode n = false) :
    get_higher_if (pre ++ Node.expr e :: rest) = none ∧
      check (pre ++ Node.expr e :: rest) m receiver = none := by
  have hg : get_higher_if (pre ++ Node.expr e :: rest) = none :=
    get_higher_if_loop_call pre rest e 0 hcall hpre
  refine ⟨hg, ?_⟩
  unfold check
  rw [hg]
  split <;> rfl

/-- C4 witness: `if validate(seq.is_empty()) { ... }` — the nearest
ancestor of the `is_empty` call is the `validate(..)` call node, so no
diagnostic is emitted even though an `if` lies above it. -/
theorem C4_call_ascent_abort_witness :
    isCallKind (Expr.callE Expr.otherE
        [Expr.methodCall "is_empty" (Expr.localRef 0) []]) = true ∧
    (get_higher_if
        ([] ++ Node.expr (Expr.callE Expr.otherE
            [Expr.methodCall "is_empty" (Expr.localRef 0) []]) ::
          [Node.expr (Expr.iteE Expr.otherE Expr.otherE none)]) = none ∧
      check ([] ++ Node.expr (Expr.callE Expr.otherE
            [Expr.methodCall "is_empty" (Expr.localRef 0) []]) ::
          [Node.expr (Expr.iteE Expr.otherE Expr.otherE none)])
          ("is_empty") (Expr.localRef 0) = none) :=
  ⟨rfl,
    C4_call_ascent_abort [] [Node.expr (Expr.iteE Expr.otherE Expr.otherE none)]
      (Expr.callE Expr.otherE [Expr.methodCall "is_empty" (Expr.localRef 0) []])
      "is_empty" (Expr.localRef 0) rfl (by simp)⟩

/-- C10: Implicit method-name gate — any observed method name other than
exactly `is_empty` makes the entry point return at once with no
diagnostic. -/
theorem C10_method_name_gate (ancestors : List Node) (method_name : String)
    (receiver : Expr) (h : method_name ≠ "is_empty") :
    check ancestors method_name receiver = none := by
  have hb : (method_name == "is_empty") = false := by
    simp only [beq_eq_false_iff_ne, ne_eq]
    exact h
  unfold check
  rw [hb]
  rfl

/-- C10 witness: the method name `len` is gated out. -/
theorem C10_method_name_gate_witness :
    ("len" : String) ≠ "is_empty" ∧
      check [] ("len") (Expr.localRef 0) = none :=
  ⟨by decide, C10_method_name_gate [] "len" (Expr.localRef 0) (by decide)⟩

/-- C6: At-least-one-qualifying requirement — with a resolved guard and
branch, the entry point emits a diagnostic iff the scan of the branch saw
no breaking access (nonzero constant index on the receiver) and recorded
at least one qualifying access (constant index zero on the receiver);
in particular an empty branch yields no finding. -/
theorem C6_at_least_one_qualifying (ancestors : List Node) (receiver : Expr)
    (g : IfExprWithIsEmpty) (stmts : List Expr)
    (hg : get_higher_if ancestors = some g)
    (hblk : g.block_to_visit = some stmts) :
    check ancestors ("is_empty") receiver ≠ none ↔
      ((∀ e ∈ subExprsList stmts, breaking_access receiver e = false) ∧
       (∃ e ∈ subExprsList stmts, qualifying_access receiver e = true)) := by
  have hrv : (for_each_expr_with_closures (visit_index receiver) stmts
      { should_lint := false, spans_to_replace := [] }).should_lint = true ↔
      ((∀ e ∈ subExprsList stmts, breaking_access receiver e = false) ∧
       (∃ e ∈ subExprsList stmts, qualifying_access receiver e = true)) := by
    simpa [for_each_expr_with_closures, run_visitor] using
      run_visitor_should_lint receiver (subExprsList stmts)
        { should_lint := false, spans_to_replace := [] }
  rw [← hrv]
  simp only [check, hg, hblk]
  by_cases hl : (for_each_expr_with_closures (visit_index receiver) stmts
      { should_lint := false, spans_to_replace := [] }).should_lint = true <;>
    simp [hl]

/-- C6 witness: `if seq.is_empty() { } else { seq[0]; }` — the guard
resolves to the else branch, the scan has no breaking access and one
qualifying access, and the diagnostic is emitted. -/
theorem C6_at_least_one_qualifying_witness :
    get_higher_if
        [Node.expr (Expr.iteE (Expr.methodCall "is_empty" (Expr.localRef 0) [])
          (Expr.blockE [])
          (some (Expr.blockE [Expr.index (Expr.localRef 0) (Expr.litE 0)])))]
      = some ⟨⟨Expr.methodCall "is_empty" (Expr.localRef 0) [],
              Expr.blockE [],
              some (Expr.blockE [Expr.index (Expr.localRef 0) (Expr.litE 0)])⟩, true⟩ ∧
    IfExprWithIsEmpty.block_to_visit
        ⟨⟨Expr.methodCall "is_empty" (Expr.localRef 0) [],
          Expr.blockE [],
          some (Expr.blockE [Expr.index (Expr.localRef 0) (Expr.litE 0)])⟩, true⟩
      = some [Expr.index (Expr.localRef 0) (Expr.litE 0)] ∧
    (check [Node.expr (Expr.iteE (Expr.methodCall "is_empty" (Expr.localRef 0) [])
          (Expr.blockE [])
          (some (Expr.blockE [Expr.index (Expr.localRef 0) (Expr.litE 0)])))]
        ("is_empty") (Expr.localRef 0) ≠ none ↔
      ((∀ e ∈ subExprsList [Expr.index (Expr.localRef 0) (Expr.litE 0)],
          breaking_access (Expr.localRef 0) e = false) ∧
       (∃ e ∈ subExprsList [Expr.index (Expr.localRef 0) (Expr.litE 0)],
          qualifying_access (Expr.localRef 0) e = true))) :=
  ⟨rfl, rfl,
    C6_at_least_one_qualifying
      [Node.expr (Expr.iteE (Expr.methodCall "is_empty" (Expr.localRef 0) [])
        (Expr.blockE [])
        (some (Expr.blockE [Expr.index (Expr.localRef 0) (Expr.litE 0)])))]
      (Expr.localRef 0)
      ⟨⟨Expr.methodCall "is_empty" (Expr.localRef 0) [],
        Expr.blockE [],
        some (Expr.blockE [Expr.index (Expr.localRef 0) (Expr.litE 0)])⟩, true⟩
      [Expr.index (Expr.localRef 0) (Expr.litE 0)] rfl rfl⟩

/-- C5: Nonzero-index abort — an index access on the receiver whose index
constant-evaluates to a nonzero unsigned value clears `should_lint` and
stops the traversal at once (the remaining expressions are never
consulted), and when such an access occurs anywhere in the resolved
branch, the entry point reports no finding, however many qualifying
zero-index accesses came before it. -/
theorem C5_nonzero_abort (receiver ex : Expr) (rest stmts : List Expr)
    (st : ScanState) (ancestors : List Node) (g : IfExprWithIsEmpty)
    (hb : breaking_access receiver ex = true)
    (hg : get_higher_if ancestors = some g)
    (hblk : g.block_to_visit = some stmts)
    (hmem : ex ∈ subExprsList stmts) :
    run_visitor receiver (ex :: rest) st = { st with should_lint := false } ∧
      check ancestors ("is_empty") receiver = none := by
  refine ⟨run_visitor_break receiver ex rest st hb, ?_⟩
  have hl : (for_each_expr_with_closures (visit_index receiver) stmts
      { should_lint := false, spans_to_replace := [] }).should_lint ≠ true := by
    intro h
    have hchar := (run_visitor_should_lint receiver (subExprsList stmts)
      { should_lint := false, spans_to_replace := [] }).mp h
    have hfalse := hchar.1 ex hmem
    rw [hb] at hfalse
    simp at hfalse
  simp only [check, hg, hblk]
  simp [hl]

/-- C5 witness: `if seq.is_empty() { } else { seq[0]; seq[1]; }` — the
access `seq[1]` is breaking, the scan stops there, and no finding is
reported despite the earlier qualifying `seq[0]`. -/
theorem C5_nonzero_abort_witness :
    breaking_access (Expr.localRef 0) (Expr.index (Expr.localRef 0) (Expr.litE 1)) = true ∧
    get_higher_if
        [Node.expr (Expr.iteE (Expr.methodCall "is_empty" (Expr.localRef 0) [])
          (Expr.blockE [])
          (some (Expr.blockE [Expr.index (Expr.localRef 0) (Expr.litE 0),
                              Expr.index (Expr.localRef 0) (Expr.litE 1)])))]
      = some ⟨⟨Expr.methodCall "is_empty" (Expr.localRef 0) [],
              Expr.blockE [],
              some (Expr.blockE [Expr.index (Expr.localRef 0) (Expr.litE 0),
                                 Expr.index (Expr.localRef 0) (Expr.litE 1)])⟩, true⟩ ∧
    Expr.index (Expr.localRef 0) (Expr.litE 1) ∈
      subExprsList [Expr.index (Expr.localRef 0) (Expr.litE 0),
                    Expr.index (Expr.localRef 0) (Expr.litE 1)] ∧
    (run_visitor (Expr.localRef 0)
        (Expr.index (Expr.localRef 0) (Expr.litE 1) :: [Expr.index (Expr.localRef 0) (Expr.litE 0)])
        { should_lint := true, spans_to_replace := [] }
      = { should_lint := false, spans_to_replace := [] } ∧
     check [Node.expr (Expr.iteE (Expr.methodCall "is_empty" (Expr.localRef 0) [])
          (Expr.blockE [])
          (some (Expr.blockE [Expr.index (Expr.localRef 0) (Expr.litE 0),
                              Expr.index (Expr.localRef 0) (Expr.litE 1)])))]
        ("is_empty") (Expr.localRef 0) = none) :=
  ⟨rfl, rfl, by simp [subExprsList, subExprs],
    C5_nonzero_abort (Expr.localRef 0) (Expr.index (Expr.localRef 0) (Expr.litE 1))
      [Expr.index (Expr.localRef 0) (Expr.litE 0)]
      [Expr.index (Expr.localRef 0) (Expr.litE 0),
       Expr.index (Expr.localRef 0) (Expr.litE 1)]
      { should_lint := true, spans_to_replace := [] }
      [Node.expr (Expr.iteE (Expr.methodCall "is_empty" (Expr.localRef 0) [])
        (Expr.blockE [])
        (some (Expr.blockE [Expr.index (Expr.localRef 0) (Expr.litE 0),
                            Expr.index (Expr.localRef 0) (Expr.litE 1)])))]
      ⟨⟨Expr.methodCall "is_empty" (Expr.localRef 0) [],
        Expr.blockE [],
        some (Expr.blockE [Expr.index (Expr.localRef 0) (Expr.litE 0),
                           Expr.index (Expr.localRef 0) (Expr.litE 1)])⟩, true⟩
      rfl rfl rfl (by simp [subExprsList, subExprs])⟩

/-- C3 counterexample: `if !seq.is_empty() { seq[0]; }` with no else —
contrary to the claim, the guard resolves (sense "is non-empty"), the
then block is scanned although no else block exists, and the entry point
DOES emit a diagnostic. -/
theorem C3_counterexample :
    get_higher_if
        [Node.expr (Expr.unaryNot (Expr.methodCall "is_empty" (Expr.localRef 0) [])),
         Node.expr (Expr.iteE
           (Expr.unaryNot (Expr.methodCall "is_empty" (Expr.localRef 0) []))
           (Expr.blockE [Expr.index (Expr.localRef 0) (Expr.litE 0)]) none)]
      = some ⟨⟨Expr.unaryNot (Expr.methodCall "is_empty" (Expr.localRef 0) []),
              Expr.blockE [Expr.index (Expr.localRef 0) (Expr.litE 0)], none⟩, false⟩ ∧
    check
        [Node.expr (Expr.unaryNot (Expr.methodCall "is_empty" (Expr.localRef 0) [])),
         Node.expr (Expr.iteE
           (Expr.unaryNot (Expr.methodCall "is_empty" (Expr.localRef 0) []))
           (Expr.blockE [Expr.index (Expr.localRef 0) (Expr.litE 0)]) none)]
        ("is_empty") (Expr.localRef 0)
      = some (Expr.unaryNot (Expr.methodCall "is_empty" (Expr.localRef 0) [])) :=
  ⟨rfl, rfl⟩

/-- C3 amended: the else block is required only for the "is empty" sense —
when the resolved sense is "is empty" and there is no else block the
entry point returns without a diagnostic, while for the "is non-empty"
sense the then block is scanned regardless of any else block, and the
diagnostic is governed solely by the scan of the then block. -/
theorem C3_missing_else_amended (ancestors : List Node) (receiver : Expr)
    (g : IfExprWithIsEmpty) (hg : get_higher_if ancestors = some g) :
    (g.if_is_empty = true → g.higher_if.else_ = none →
       check ancestors ("is_empty") receiver = none) ∧
    (g.if_is_empty = false → ∀ stmts, g.higher_if.then_ = Expr.blockE stmts →
       (check ancestors ("is_empty") receiver = none ↔
         (run_visitor receiver (subExprsList stmts)
             { should_lint := false, spans_to_replace := [] }).should_lint = false)) := by
  constructor
  · intro hie hel
    have hb : g.block_to_visit = none := by
      simp [IfExprWithIsEmpty.block_to_visit, hie, hel, get_block_from_expr_opt]
    simp [check, hg, hb]
  · intro hie stmts ht
    have hb : g.block_to_visit = some stmts := by
      simp [IfExprWithIsEmpty.block_to_visit, hie, ht, get_block_from_expr_opt]
    simp only [check, hg, hb]
    by_cases hl : (for_each_expr_with_closures (visit_index receiver) stmts
        { should_lint := false, spans_to_replace := [] }).should_lint = true <;>
      simp only [for_each_expr_with_closures, run_visitor] at hl ⊢ <;>
      simp [hl]

/-- C3 amended witness: for `if !seq.is_empty() { seq[0]; }` (no else)
the "is non-empty" side of the amended statement applies and the
diagnostic condition reduces to the scan of the then block. -/
theorem C3_missing_else_amended_witness :
    get_higher_if
        [Node.expr (Expr.unaryNot Expr.otherE),
         Node.expr (Expr.iteE (Expr.unaryNot Expr.otherE)
           (Expr.blockE [Expr.index (Expr.localRef 3) (Expr.litE 0)]) none)]
      = some ⟨⟨Expr.unaryNot Expr.otherE,
              Expr.blockE [Expr.index (Expr.localRef 3) (Expr.litE 0)], none⟩, false⟩ ∧
    ((⟨⟨Expr.unaryNot Expr.otherE,
        Expr.blockE [Expr.index (Expr.localRef 3) (Expr.litE 0)], none⟩, false⟩ :
          IfExprWithIsEmpty).if_is_empty = true →
      (⟨⟨Expr.unaryNot Expr.otherE,
        Expr.blockE [Expr.index (Expr.localRef 3) (Expr.litE 0)], none⟩, false⟩ :
          IfExprWithIsEmpty).higher_if.else_ = none →
      check [Node.expr (Expr.unaryNot Expr.otherE),
         Node.expr (Expr.iteE (Expr.unaryNot Expr.otherE)
           (Expr.blockE [Expr.index (Expr.localRef 3) (Expr.litE 0)]) none)]
        ("is_empty") (Expr.localRef 3) = none) ∧
    ((⟨⟨Expr.unaryNot Expr.otherE,
        Expr.blockE [Expr.index (Expr.localRef 3) (Expr.litE 0)], none⟩, false⟩ :
          IfExprWithIsEmpty).if_is_empty = false →
      ∀ stmts, (⟨⟨Expr.unaryNot Expr.otherE,
        Expr.blockE [Expr.index (Expr.localRef 3) (Expr.litE 0)], none⟩, false⟩ :
          IfExprWithIsEmpty).higher_if.then_ = Expr.blockE stmts →
      (check [Node.expr (Expr.unaryNot Expr.otherE),
         Node.expr (Expr.iteE (Expr.unaryNot Expr.otherE)
           (Expr.blockE [Expr.index (Expr.localRef 3) (Expr.litE 0)]) none)]
        ("is_empty") (Expr.localRef 3) = none ↔
        (run_visitor (Expr.localRef 3) (subExprsList stmts)
            { should_lint := false, spans_to_replace := [] }).should_lint = false)) :=
  ⟨rfl,
    (C3_missing_else_amended
      [Node.expr (Expr.unaryNot Expr.otherE),
       Node.expr (Expr.iteE (Expr.unaryNot Expr.otherE)
         (Expr.blockE [Expr.index (Expr.localRef 3) (Expr.litE 0)]) none)]
      (Expr.localRef 3)
      ⟨⟨Expr.unaryNot Expr.otherE,
        Expr.blockE [Expr.index (Expr.localRef 3) (Expr.litE 0)], none⟩, false⟩
      rfl).1,
    (C3_missing_else_amended
      [Node.expr (Expr.unaryNot Expr.otherE),
       Node.expr (Expr.iteE (Expr.unaryNot Expr.otherE)
         (Expr.blockE [Expr.index (Expr.localRef 3) (Expr.litE 0)]) none)]
      (Expr.localRef 3)
      ⟨⟨Expr.unaryNot Expr.otherE,
        Expr.blockE [Expr.index (Expr.localRef 3) (Expr.litE 0)], none⟩, false⟩
      rfl).2⟩

/-- C1 counterexample: the branch `{ seq[i]; seq[0]; }`, where the index
`i` is not a compile-time unsigned constant — contrary to the claim, the
non-constant index access does not mark the result unsafe and does not
stop the scan: the scan continues past it, records `seq[0]` and marks the
branch safe (`should_lint = true`). -/
theorem C1_counterexample :
    (run_visitor (Expr.localRef 0)
        (subExprsList [Expr.index (Expr.localRef 0) Expr.otherE,
                       Expr.index (Expr.localRef 0) (Expr.litE 0)])
        { should_lint := false, spans_to_replace := [] }).should_lint = true ∧
    constant_full_int Expr.otherE = none ∧
    path_to_local (Expr.localRef 0) = some 0 :=
  ⟨rfl, rfl, rfl⟩

/-- C1 amended: scanner soundness holds for constant indices — in a
branch marked safe, every index access whose base resolves to the same
local as the receiver and whose index constant-evaluates to an unsigned
value uses the value zero; an index access whose index does not
constant-evaluate is ignored (the visitor leaves the state unchanged and
continues, rather than marking unsafe and stopping); and the traversal
does reach accesses inside nested closure bodies. -/
theorem C1_scanner_soundness_amended (receiver : Expr) (es : List Expr)
    (st0 : ScanState)
    (hsafe : (run_visitor receiver es st0).should_lint = true) :
    (∀ seq bracket id, Expr.index seq bracket ∈ es →
       path_to_local seq = some id → path_to_local receiver = some id →
       ∀ v, constant_full_int bracket = some (FullInt.U v) → v = 0) ∧
    (∀ seq bracket st, constant_full_int bracket = none →
       visit_index receiver (Expr.index seq bracket) st = (st, ControlFlow.Continue)) ∧
    (∀ e b, e ∈ subExprs b → e ∈ subExprs (Expr.closureE b)) := by
  refine ⟨?_, ?_, ?_⟩
  · intro seq bracket id hmem hs hr v hc
    have hnb := ((run_visitor_should_lint receiver es st0).mp hsafe).1 _ hmem
    by_contra hv
    have : breaking_access receiver (Expr.index seq bracket) = true := by
      simp [breaking_access, hs, hr, hc, hv]
    rw [this] at hnb
    simp at hnb
  · intro seq bracket st hc
    cases hs : path_to_local seq with
    | none => simp [visit_index, hs]
    | some s =>
      cases hr : path_to_local receiver with
      | none => simp [visit_index, hs, hr]
      | some r =>
        by_cases hsr : s = r <;> simp [visit_index, hs, hr, hsr, hc]
  · intro e b h
    simp only [subExprs]
    exact List.mem_cons_of_mem _ h

/-- C1 amended witness: a branch holding a single `seq[0]` access, inside
a closure body, is marked safe and satisfies the amended soundness
properties. -/
theorem C1_scanner_soundness_amended_witness :
    (run_visitor (Expr.localRef 0)
        (subExprsList [Expr.closureE (Expr.index (Expr.localRef 0) (Expr.litE 0))])
        { should_lint := false, spans_to_replace := [] }).should_lint = true ∧
    ((∀ seq bracket id, Expr.index seq bracket ∈
         subExprsList [Expr.closureE (Expr.index (Expr.localRef 0) (Expr.litE 0))] →
       path_to_local seq = some id → path_to_local (Expr.localRef 0) = some id →
       ∀ v, constant_full_int bracket = some (FullInt.U v) → v = 0) ∧
     (∀ seq bracket st, constant_full_int bracket = none →
       visit_index (Expr.localRef 0) (Expr.index seq bracket) st =
         (st, ControlFlow.Continue)) ∧
     (∀ e b, e ∈ subExprs b → e ∈ subExprs (Expr.closureE b))) :=
  ⟨rfl,
    C1_scanner_soundness_amended (Expr.localRef 0)
      (subExprsList [Expr.closureE (Expr.index (Expr.localRef 0) (Expr.litE 0))])
      { should_lint := false, spans_to_replace := [] } rfl⟩

/-- C7: Branch-swap correctness — when the guard's sense is "is empty"
the synthesized then-text is exactly the original else-text and the
synthesized else-text is exactly the original then-text (swapped); when
the sense is "is non-empty" the then/else order is kept (the then-text is
derived from the original then snippet, the else-text is the original
else snippet). -/
theorem C7_branch_swap (snip : Expr → String) (g : IfExprWithIsEmpty)
    (receiver el : Expr) (hel : g.higher_if.else_ = some el) :
    (g.if_is_empty = true →
       make_suggestion snip g receiver =
         some ("let x = " ++ snip receiver ++ ".first()",
           snip el, snip g.higher_if.then_)) ∧
    (g.if_is_empty = false →
       make_suggestion snip g receiver =
         some ("let x = " ++ snip receiver ++ ".first()",
           str_replace (snip g.higher_if.then_) (snip receiver ++ "[0]") ("x"),
           snip el)) := by
  constructor <;> intro hie <;> simp [make_suggestion, hel, hie]

/-- C7 witness: a guard with sense "is empty" whose snippets are produced
by the concrete oracle `snipFix` — the emitted texts are the original
else/then snippets, swapped. -/
theorem C7_branch_swap_witness :
    (⟨⟨Expr.otherE, Expr.blockE [],
        some (Expr.blockE [Expr.index (Expr.localRef 1) (Expr.litE 0)])⟩, true⟩ :
      IfExprWithIsEmpty).higher_if.else_ =
        some (Expr.blockE [Expr.index (Expr.localRef 1) (Expr.litE 0)]) ∧
    (((⟨⟨Expr.otherE, Expr.blockE [],
        some (Expr.blockE [Expr.index (Expr.localRef 1) (Expr.litE 0)])⟩, true⟩ :
      IfExprWithIsEmpty).if_is_empty = true →
      make_suggestion snipFix
          ⟨⟨Expr.otherE, Expr.blockE [],
            some (Expr.blockE [Expr.index (Expr.localRef 1) (Expr.litE 0)])⟩, true⟩
          (Expr.localRef 1) =
        some ("let x = " ++ snipFix (Expr.localRef 1) ++ ".first()",
          snipFix (Expr.blockE [Expr.index (Expr.localRef 1) (Expr.litE 0)]),
          snipFix (Expr.blockE []))) ∧
     ((⟨⟨Expr.otherE, Expr.blockE [],
        some (Expr.blockE [Expr.index (Expr.localRef 1) (Expr.litE 0)])⟩, true⟩ :
      IfExprWithIsEmpty).if_is_empty = false →
      make_suggestion snipFix
          ⟨⟨Expr.otherE, Expr.blockE [],
            some (Expr.blockE [Expr.index (Expr.localRef 1) (Expr.litE 0)])⟩, true⟩
          (Expr.localRef 1) =
        some ("let x = " ++ snipFix (Expr.localRef 1) ++ ".first()",
          str_replace (snipFix (Expr.blockE []))
            (snipFix (Expr.localRef 1) ++ "[0]") ("x"),
          snipFix (Expr.blockE [Expr.index (Expr.localRef 1) (Expr.litE 0)])))) :=
  ⟨rfl,
    C7_branch_swap snipFix
      ⟨⟨Expr.otherE, Expr.blockE [],
        some (Expr.blockE [Expr.index (Expr.localRef 1) (Expr.litE 0)])⟩, true⟩
      (Expr.localRef 1)
      (Expr.blockE [Expr.index (Expr.localRef 1) (Expr.litE 0)]) rfl⟩

/-- C8: evaluation at the failing input — a guard with sense "is empty",
receiver snippet `seq`, then snippet `return;` and else snippet
`use(seq[0]);`: the synthesized then-replacement is the else snippet
verbatim, still containing the text `seq[0]`; no occurrence of
`receiver[0]` is replaced by the bound name in the swapped case (and the
else-replacement of the unswapped case is likewise emitted verbatim). -/
theorem C8_bound_name_substitution_eval :
    make_suggestion snipFix
        ⟨⟨Expr.otherE, Expr.blockE [],
          some (Expr.blockE [Expr.index (Expr.localRef 0) (Expr.litE 0)])⟩, true⟩
        (Expr.localRef 0)
      = some ("let x = seq.first()", "use(seq[0]);", "return;") ∧
    contains_sub ("seq[0]").data ("use(seq[0]);").data = true ∧
    contains_sub ("x").data ("use(seq[0]);").data = false :=
  ⟨rfl, rfl, rfl⟩

/-- C9: evaluation at the failing input — with receiver snippet `seq` the
synthesized condition replacement is the literal text
`let x = seq.first()`: it calls `.first()` on the receiver text and binds
the name `x`, but contains no `Some` (no match of the present-value
variant of the returned option). -/
theorem C9_condition_shape_eval :
    make_suggestion snipFix
        ⟨⟨Expr.otherE, Expr.blockE [], some (Expr.blockE [])⟩, false⟩
        (Expr.localRef 0)
      = some ("let x = seq.first()", "return;", "return;") ∧
    contains_sub ("Some").data ("let x = seq.first()").data = false ∧
    contains_sub (".first()").data ("let x = seq.first()").data = true ∧
    contains_sub ("let x = ").data ("let x = seq.first()").data = true :=
  ⟨rfl, rfl, rfl, rfl⟩

end UnnecessaryIndexing
